import Mathlib

/-!
Shallow embedding of the procurement data model and validation engine of
`src/main.py` (pydantic models `ContactPerson`, `Supplier`, `ListPrice`,
`Bid`, `Lot`, `Procurement` and the methods `at_least_one_winning_bid`,
`get_winning_bids`, `check_organization_behind_winning_bids_have_fskatt`,
`check_organization_behind_winning_bids_have_not_filed_for_bankruptcy`,
`check`).

Python exceptions are embedded as `Except`: a method that raises a typed
failure becomes a function into `Except ValidationFailure Unit`, and
sequential statements that may raise become sequencing in the `Except`
monad (the first raise wins, exactly as in Python).  Python `float` prices
are embedded as exact rationals `ℚ` (no claim performs float arithmetic;
the values are only stored, compared and serialized).  Console output
(`print`) has no observable effect on the aggregate and is dropped.
-/

namespace Procure

/-- The failure taxonomy.  The source imports `BidError` and `LotError`
from an `errors` module that is not part of the sources; each is raised
with a single message string, so it is embedded as a constructor carrying
that message. -/
inductive ValidationFailure where
  | lotError (msg : String)
  | bidError (msg : String)
deriving DecidableEq, Repr

/-- `class ContactPerson(BaseModel)`: three plain `str` fields, no
validators. -/
structure ContactPerson where
  name : String
  email : String
  phone : String
deriving DecidableEq, Repr

/-- `class Supplier(BaseModel)`: company profile.  Field names follow the
source exactly (including the `adress` spelling). -/
structure Supplier where
  id : Int
  name : String
  adress : String
  city : String
  postcode : String
  country : String
  country_wikidata : String
  contact_persons : List ContactPerson
  organization_code : String
  fskatt : Bool
  bankruptcy : Bool
deriving DecidableEq, Repr

/-- `class ListPrice(BaseModel)`: a priced line item.  The Python `float`
price is embedded as an exact rational. -/
structure ListPrice where
  name : String
  price : ℚ
  currency : String
  details : String
deriving DecidableEq, Repr

/-- `class Bid(BaseModel)`: a supplier's offer for a lot; `supplier` is the
integer id of a roster entry, as in the source. -/
structure Bid where
  fixed_prices : List ListPrice
  hour_prices : List ListPrice
  supplier : Int
  winner : Bool
  time : String
deriving DecidableEq, Repr

/-- `class Lot(BaseModel)`. -/
structure Lot where
  name : String
  details : String
  bids : List Bid
deriving DecidableEq, Repr

/-- `class Procurement(BaseModel)`: the aggregate root. -/
structure Procurement where
  lots : List Lot
  name : String
  details : String
  format_version : String
  organization_id : Int
  time : String
  suppliers : List Supplier
deriving DecidableEq, Repr

/-- `Lot.at_least_one_winning_bid`: the source loop returns `True` on the
first bid with `winner is True`, else `False`. -/
def Lot.at_least_one_winning_bid (l : Lot) : Bool :=
  l.bids.any fun b => b.winner

/-- `Lot.get_winning_bids`: the source appends, in bid order, every bid
with `winner is True`. -/
def Lot.get_winning_bids (l : Lot) : List Bid :=
  l.bids.filter fun b => b.winner

/-- Runs a fallible action on each list element in order, propagating the
first raised failure — the embedding of a Python `for` loop whose body may
`raise`. -/
def firstError (f : α → Except ValidationFailure Unit) :
    List α → Except ValidationFailure Unit
  | [] => .ok ()
  | x :: xs =>
    match f x with
    | .error e => .error e
    | .ok _ => firstError f xs

/-- Body of the inner loops of
`check_organization_behind_winning_bids_have_fskatt` for one winning bid:
the source scans the whole roster (no break) and raises on the first
supplier whose `id` equals the bid's `supplier` and whose `fskatt` is
false. -/
def fskattBidCheck (suppliers : List Supplier) (bid : Bid) :
    Except ValidationFailure Unit :=
  match suppliers.find? (fun s => s.id == bid.supplier && !s.fskatt) with
  | some s => .error (.bidError (s.name ++ " is not registered for F-skatt"))
  | none => .ok ()

/-- Body of the inner loops of
`check_organization_behind_winning_bids_have_not_filed_for_bankruptcy` for
one winning bid: raises on the first roster supplier whose `id` matches
and whose `bankruptcy` is true. -/
def bankruptcyBidCheck (suppliers : List Supplier) (bid : Bid) :
    Except ValidationFailure Unit :=
  match suppliers.find? (fun s => s.id == bid.supplier && s.bankruptcy) with
  | some s => .error (.bidError (s.name ++ " has filed for bankruptcy"))
  | none => .ok ()

/-- `Procurement.check_organization_behind_winning_bids_have_fskatt`:
iterates lots in order, each lot's winning bids in order, raising the
first `BidError`. -/
def Procurement.check_organization_behind_winning_bids_have_fskatt
    (p : Procurement) : Except ValidationFailure Unit :=
  firstError (fun lot => firstError (fskattBidCheck p.suppliers) lot.get_winning_bids) p.lots

/-- `Procurement.check_organization_behind_winning_bids_have_not_filed_for_bankruptcy`. -/
def Procurement.check_organization_behind_winning_bids_have_not_filed_for_bankruptcy
    (p : Procurement) : Except ValidationFailure Unit :=
  firstError (fun lot => firstError (bankruptcyBidCheck p.suppliers) lot.get_winning_bids) p.lots

/-- The per-lot award-existence step of `Procurement.check`: raises
`LotError` when the lot has no winning bid. -/
def lotCheck (lot : Lot) : Except ValidationFailure Unit :=
  if lot.at_least_one_winning_bid then .ok ()
  else .error (.lotError ("Lot '" ++ lot.name ++ "' does not have a winning bid"))

/-- Sequencing of two fallible statements: the second runs only when the
first did not raise. -/
def andThen (a b : Except ValidationFailure Unit) : Except ValidationFailure Unit :=
  match a with
  | .error e => .error e
  | .ok _ => b

/-- `Procurement.check`: first the award-existence loop over all lots,
then the F-skatt check, then the bankruptcy check; the first raised
failure aborts the call (the trailing `print` is console output only). -/
def Procurement.check (p : Procurement) : Except ValidationFailure Unit :=
  andThen (firstError lotCheck p.lots)
    (andThen p.check_organization_behind_winning_bids_have_fskatt
      p.check_organization_behind_winning_bids_have_not_filed_for_bankruptcy)

/-! ### Behaviour of the loop embedding -/

theorem firstError_eq_ok_iff (f : α → Except ValidationFailure Unit) (l : List α) :
    firstError f l = .ok () ↔ ∀ x ∈ l, f x = .ok () := by
  induction l with
  | nil => simp [firstError]
  | cons x xs ih =>
    cases h : f x with
    | error e =>
      simp only [firstError, h]
      constructor
      · intro hc; cases hc
      · intro hall
        have hx := hall x (by simp)
        rw [h] at hx; cases hx
    | ok u =>
      cases u
      simp only [firstError, h, ih]
      constructor
      · intro hall y hy
        cases hy with
        | head => exact h
        | tail _ hy => exact hall y hy
      · intro hall y hy; exact hall y (List.mem_cons_of_mem _ hy)

theorem firstError_error_shape {P : ValidationFailure → Prop}
    (f : α → Except ValidationFailure Unit) (l : List α)
    (hP : ∀ x ∈ l, f x = .ok () ∨ ∃ e, f x = .error e ∧ P e) :
    firstError f l = .ok () ∨ ∃ e, firstError f l = .error e ∧ P e := by
  induction l with
  | nil => left; rfl
  | cons x xs ih =>
    rcases hP x (by simp) with hx | ⟨e, he, hPe⟩
    · have hrec := ih fun y hy => hP y (List.mem_cons_of_mem _ hy)
      rcases hrec with hok | ⟨e, he, hPe⟩
      · left; simp [firstError, hx, hok]
      · right; exact ⟨e, by simp [firstError, hx, he], hPe⟩
    · right; exact ⟨e, by simp [firstError, he], hPe⟩

theorem firstError_if (c : α → Bool) (g : α → ValidationFailure) (l : List α) :
    firstError (fun x => if c x then .ok () else .error (g x)) l =
      match l.find? (fun x => !c x) with
      | some x => .error (g x)
      | none => .ok () := by
  induction l with
  | nil => rfl
  | cons x xs ih =>
    by_cases hc : c x
    · rw [List.find?_cons_of_neg _ (by simp [hc])]
      simpa [firstError, hc] using ih
    · rw [List.find?_cons_of_pos _ (by simp [hc])]
      simp [firstError, hc]

theorem lotCheck_eq_if :
    lotCheck = fun l : Lot =>
      if l.at_least_one_winning_bid then (Except.ok () : Except ValidationFailure Unit)
      else .error (.lotError ("Lot '" ++ l.name ++ "' does not have a winning bid")) := rfl

/-- The award-existence loop of `check` raises on the first lot without a
winning bid. -/
theorem lotStage_error (lots : List Lot) (lot : Lot)
    (h : lots.find? (fun l => !l.at_least_one_winning_bid) = some lot) :
    firstError lotCheck lots =
      .error (.lotError ("Lot '" ++ lot.name ++ "' does not have a winning bid")) := by
  rw [lotCheck_eq_if, firstError_if, h]

/-- The award-existence loop of `check` passes when every lot has a
winning bid. -/
theorem lotStage_ok (lots : List Lot)
    (h : lots.find? (fun l => !l.at_least_one_winning_bid) = none) :
    firstError lotCheck lots = .ok () := by
  rw [lotCheck_eq_if, firstError_if, h]

theorem fskattBidCheck_eq_ok_iff (sup : List Supplier) (bid : Bid) :
    fskattBidCheck sup bid = .ok () ↔
      ∀ s ∈ sup, s.id = bid.supplier → s.fskatt = true := by
  unfold fskattBidCheck
  cases h : sup.find? (fun s => s.id == bid.supplier && !s.fskatt) with
  | some s =>
    have hmem := List.mem_of_find?_eq_some h
    have hp := List.find?_some h
    simp only [Bool.and_eq_true, beq_iff_eq, Bool.not_eq_true'] at hp
    simp only [reduceCtorEq, false_iff, not_forall]
    exact ⟨s, hmem, hp.1, by simp [hp.2]⟩
  | none =>
    rw [List.find?_eq_none] at h
    simp only [true_iff]
    intro s hs hid
    have := h s hs
    simp only [Bool.and_eq_true, beq_iff_eq, Bool.not_eq_true', not_and] at this
    have := this hid
    simpa using this

theorem bankruptcyBidCheck_eq_ok_iff (sup : List Supplier) (bid : Bid) :
    bankruptcyBidCheck sup bid = .ok () ↔
      ∀ s ∈ sup, s.id = bid.supplier → s.bankruptcy = false := by
  unfold bankruptcyBidCheck
  cases h : sup.find? (fun s => s.id == bid.supplier && s.bankruptcy) with
  | some s =>
    have hmem := List.mem_of_find?_eq_some h
    have hp := List.find?_some h
    simp only [Bool.and_eq_true, beq_iff_eq] at hp
    simp only [reduceCtorEq, false_iff, not_forall]
    exact ⟨s, hmem, hp.1, by simp [hp.2]⟩
  | none =>
    rw [List.find?_eq_none] at h
    simp only [true_iff]
    intro s hs hid
    have := h s hs
    simp only [Bool.and_eq_true, beq_iff_eq, not_and] at this
    simpa using this hid

theorem fskattBidCheck_cases (sup : List Supplier) (bid : Bid) :
    fskattBidCheck sup bid = .ok () ∨
      ∃ s ∈ sup, s.fskatt = false ∧
        fskattBidCheck sup bid =
          .error (.bidError (s.name ++ " is not registered for F-skatt")) := by
  unfold fskattBidCheck
  cases h : sup.find? (fun s => s.id == bid.supplier && !s.fskatt) with
  | none => left; rfl
  | some s =>
    right
    have hp := List.find?_some h
    simp only [Bool.and_eq_true, beq_iff_eq, Bool.not_eq_true'] at hp
    exact ⟨s, List.mem_of_find?_eq_some h, hp.2, rfl⟩

theorem bankruptcyBidCheck_cases (sup : List Supplier) (bid : Bid) :
    bankruptcyBidCheck sup bid = .ok () ∨
      ∃ s ∈ sup, s.bankruptcy = true ∧
        bankruptcyBidCheck sup bid =
          .error (.bidError (s.name ++ " has filed for bankruptcy")) := by
  unfold bankruptcyBidCheck
  cases h : sup.find? (fun s => s.id == bid.supplier && s.bankruptcy) with
  | none => left; rfl
  | some s =>
    right
    have hp := List.find?_some h
    simp only [Bool.and_eq_true, beq_iff_eq] at hp
    exact ⟨s, List.mem_of_find?_eq_some h, hp.2, rfl⟩

theorem fskatt_check_eq_ok_iff (p : Procurement) :
    p.check_organization_behind_winning_bids_have_fskatt = .ok () ↔
      ∀ lot ∈ p.lots, ∀ bid ∈ lot.get_winning_bids, ∀ s ∈ p.suppliers,
        s.id = bid.supplier → s.fskatt = true := by
  unfold Procurement.check_organization_behind_winning_bids_have_fskatt
  simp only [firstError_eq_ok_iff, fskattBidCheck_eq_ok_iff]

theorem bankruptcy_check_eq_ok_iff (p : Procurement) :
    p.check_organization_behind_winning_bids_have_not_filed_for_bankruptcy = .ok () ↔
      ∀ lot ∈ p.lots, ∀ bid ∈ lot.get_winning_bids, ∀ s ∈ p.suppliers,
        s.id = bid.supplier → s.bankruptcy = false := by
  unfold Procurement.check_organization_behind_winning_bids_have_not_filed_for_bankruptcy
  simp only [firstError_eq_ok_iff, bankruptcyBidCheck_eq_ok_iff]

theorem fskatt_check_cases (p : Procurement) :
    p.check_organization_behind_winning_bids_have_fskatt = .ok () ∨
      ∃ s ∈ p.suppliers, s.fskatt = false ∧
        p.check_organization_behind_winning_bids_have_fskatt =
          .error (.bidError (s.name ++ " is not registered for F-skatt")) := by
  unfold Procurement.check_organization_behind_winning_bids_have_fskatt
  have h := firstError_error_shape
    (P := fun e => ∃ s ∈ p.suppliers, s.fskatt = false ∧
      e = .bidError (s.name ++ " is not registered for F-skatt"))
    (fun lot => firstError (fskattBidCheck p.suppliers) lot.get_winning_bids) p.lots
    (by
      intro lot _
      apply firstError_error_shape
      intro bid _
      rcases fskattBidCheck_cases p.suppliers bid with hok | ⟨s, hs, hf, he⟩
      · left; exact hok
      · right; exact ⟨_, he, s, hs, hf, rfl⟩)
  rcases h with hok | ⟨e, he, s, hs, hf, hee⟩
  · left; exact hok
  · right; subst hee; exact ⟨s, hs, hf, he⟩

theorem bankruptcy_check_cases (p : Procurement) :
    p.check_organization_behind_winning_bids_have_not_filed_for_bankruptcy = .ok () ∨
      ∃ s ∈ p.suppliers, s.bankruptcy = true ∧
        p.check_organization_behind_winning_bids_have_not_filed_for_bankruptcy =
          .error (.bidError (s.name ++ " has filed for bankruptcy")) := by
  unfold Procurement.check_organization_behind_winning_bids_have_not_filed_for_bankruptcy
  have h := firstError_error_shape
    (P := fun e => ∃ s ∈ p.suppliers, s.bankruptcy = true ∧
      e = .bidError (s.name ++ " has filed for bankruptcy"))
    (fun lot => firstError (bankruptcyBidCheck p.suppliers) lot.get_winning_bids) p.lots
    (by
      intro lot _
      apply firstError_error_shape
      intro bid _
      rcases bankruptcyBidCheck_cases p.suppliers bid with hok | ⟨s, hs, hf, he⟩
      · left; exact hok
      · right; exact ⟨_, he, s, hs, hf, rfl⟩)
  rcases h with hok | ⟨e, he, s, hs, hf, hee⟩
  · left; exact hok
  · right; subst hee; exact ⟨s, hs, hf, he⟩

theorem andThen_error (e : ValidationFailure) (b : Except ValidationFailure Unit) :
    andThen (.error e) b = .error e := rfl

theorem andThen_ok (b : Except ValidationFailure Unit) :
    andThen (.ok ()) b = b := rfl

theorem check_eq_ok_iff (p : Procurement) :
    p.check = .ok () ↔
      firstError lotCheck p.lots = .ok () ∧
      p.check_organization_behind_winning_bids_have_fskatt = .ok () ∧
      p.check_organization_behind_winning_bids_have_not_filed_for_bankruptcy = .ok () := by
  unfold Procurement.check
  cases h1 : firstError lotCheck p.lots with
  | error e => simp [andThen, h1]
  | ok u =>
    cases u
    cases h2 : p.check_organization_behind_winning_bids_have_fskatt with
    | error e => simp [andThen, h2]
    | ok u2 => cases u2; simp [andThen, h2]

theorem check_eq_of_lot_fail (p : Procurement) (lot : Lot)
    (h : p.lots.find? (fun l => !l.at_least_one_winning_bid) = some lot) :
    p.check = .error (.lotError ("Lot '" ++ lot.name ++ "' does not have a winning bid")) := by
  unfold Procurement.check
  rw [lotStage_error p.lots lot h, andThen_error]

theorem check_eq_of_lots_pass (p : Procurement)
    (h : p.lots.find? (fun l => !l.at_least_one_winning_bid) = none) :
    p.check = andThen p.check_organization_behind_winning_bids_have_fskatt
      p.check_organization_behind_winning_bids_have_not_filed_for_bankruptcy := by
  unfold Procurement.check
  rw [lotStage_ok p.lots h, andThen_ok]

/-- State-passing reading of `Procurement.check`: `self` is threaded
through the call, and since the method body only reads the aggregate (no
field is ever assigned), every exit path returns the input aggregate as
the post-state. -/
def Procurement.check_run (p : Procurement) :
    Except ValidationFailure Unit × Procurement :=
  match firstError lotCheck p.lots with
  | .error e => (.error e, p)
  | .ok _ =>
    match p.check_organization_behind_winning_bids_have_fskatt with
    | .error e => (.error e, p)
    | .ok _ =>
      match p.check_organization_behind_winning_bids_have_not_filed_for_bankruptcy with
      | .error e => (.error e, p)
      | .ok _ => (.ok (), p)

/-! ### Serialization boundary

`procurement.model_dump_json(...)` (pydantic) serializes each model to a
JSON object whose keys are the declared field names, in declaration
order; lists become JSON arrays, nested models nested objects, `int`
fields JSON integers, `float` fields JSON numbers, `bool` fields JSON
booleans and `str` fields JSON strings.  The `to_document` functions below
embed that dump; numbers are carried as exact rationals. -/

inductive Json where
  | str (s : String)
  | num (q : ℚ)
  | bool (b : Bool)
  | arr (items : List Json)
  | obj (fields : List (String × Json))

def ContactPerson.to_document (c : ContactPerson) : Json :=
  .obj [("name", .str c.name), ("email", .str c.email), ("phone", .str c.phone)]

def Supplier.to_document (s : Supplier) : Json :=
  .obj [("id", .num (s.id : ℚ)), ("name", .str s.name), ("adress", .str s.adress),
    ("city", .str s.city), ("postcode", .str s.postcode), ("country", .str s.country),
    ("country_wikidata", .str s.country_wikidata),
    ("contact_persons", .arr (s.contact_persons.map ContactPerson.to_document)),
    ("organization_code", .str s.organization_code),
    ("fskatt", .bool s.fskatt), ("bankruptcy", .bool s.bankruptcy)]

def ListPrice.to_document (lp : ListPrice) : Json :=
  .obj [("name", .str lp.name), ("price", .num lp.price),
    ("currency", .str lp.currency), ("details", .str lp.details)]

def Bid.to_document (b : Bid) : Json :=
  .obj [("fixed_prices", .arr (b.fixed_prices.map ListPrice.to_document)),
    ("hour_prices", .arr (b.hour_prices.map ListPrice.to_document)),
    ("supplier", .num (b.supplier : ℚ)), ("winner", .bool b.winner),
    ("time", .str b.time)]

def Lot.to_document (l : Lot) : Json :=
  .obj [("name", .str l.name), ("details", .str l.details),
    ("bids", .arr (l.bids.map Bid.to_document))]

def Procurement.to_document (p : Procurement) : Json :=
  .obj [("lots", .arr (p.lots.map Lot.to_document)), ("name", .str p.name),
    ("details", .str p.details), ("format_version", .str p.format_version),
    ("organization_id", .num (p.organization_id : ℚ)), ("time", .str p.time),
    ("suppliers", .arr (p.suppliers.map Supplier.to_document))]

/-- Field access during deserialization: unknown extra fields are simply
never looked at, and a missing required field is the schema-failure case,
naming the field. -/
def Json.getField (j : Json) (key : String) : Except String Json :=
  match j with
  | .obj fields =>
    match fields.lookup key with
    | some v => .ok v
    | none => .error ("missing required field: " ++ key)
  | _ => .error ("missing required field: " ++ key)

def Json.asStr : Json → Except String String
  | .str s => .ok s
  | _ => .error "expected a string"

def Json.asBool : Json → Except String Bool
  | .bool b => .ok b
  | _ => .error "expected a boolean"

def Json.asNum : Json → Except String ℚ
  | .num q => .ok q
  | _ => .error "expected a number"

def Json.asInt : Json → Except String Int
  | .num q => if q.den = 1 then .ok q.num else .error "expected an integer"
  | _ => .error "expected an integer"

def Json.asArr : Json → Except String (List Json)
  | .arr items => .ok items
  | _ => .error "expected an array"

/-- Deserializes each array element in order, propagating the first
schema failure. -/
def traverseE (f : α → Except String β) : List α → Except String (List β)
  | [] => .ok []
  | a :: l =>
    match f a, traverseE f l with
    | .ok b, .ok bs => .ok (b :: bs)
    | .error e, _ => .error e
    | .ok _, .error e => .error e

/-- Modelled from the spec: a `from_document` deserializer does not appear
in the sources (only the dump via `model_dump_json` does); §4.6 requires
the exact inverse of `to_document`, reading each required field by name,
ignoring unknown fields, and failing on a missing or ill-typed required
field with an error naming it. -/
def ContactPerson.from_document (j : Json) : Except String ContactPerson := do
  let name ← (← j.getField "name").asStr
  let email ← (← j.getField "email").asStr
  let phone ← (← j.getField "phone").asStr
  return ⟨name, email, phone⟩

/-- Modelled from the spec: inverse of `Supplier.to_document` (§4.6). -/
def Supplier.from_document (j : Json) : Except String Supplier := do
  let id ← (← j.getField "id").asInt
  let name ← (← j.getField "name").asStr
  let adress ← (← j.getField "adress").asStr
  let city ← (← j.getField "city").asStr
  let postcode ← (← j.getField "postcode").asStr
  let country ← (← j.getField "country").asStr
  let country_wikidata ← (← j.getField "country_wikidata").asStr
  let cps ← (← j.getField "contact_persons").asArr
  let contact_persons ← traverseE ContactPerson.from_document cps
  let organization_code ← (← j.getField "organization_code").asStr
  let fskatt ← (← j.getField "fskatt").asBool
  let bankruptcy ← (← j.getField "bankruptcy").asBool
  return ⟨id, name, adress, city, postcode, country, country_wikidata,
    contact_persons, organization_code, fskatt, bankruptcy⟩

/-- Modelled from the spec: inverse of `ListPrice.to_document` (§4.6). -/
def ListPrice.from_document (j : Json) : Except String ListPrice := do
  let name ← (← j.getField "name").asStr
  let price ← (← j.getField "price").asNum
  let currency ← (← j.getField "currency").asStr
  let details ← (← j.getField "details").asStr
  return ⟨name, price, currency, details⟩

/-- Modelled from the spec: inverse of `Bid.to_document` (§4.6). -/
def Bid.from_document (j : Json) : Except String Bid := do
  let fps ← (← j.getField "fixed_prices").asArr
  let fixed_prices ← traverseE ListPrice.from_document fps
  let hps ← (← j.getField "hour_prices").asArr
  let hour_prices ← traverseE ListPrice.from_document hps
  let supplier ← (← j.getField "supplier").asInt
  let winner ← (← j.getField "winner").asBool
  let time ← (← j.getField "time").asStr
  return ⟨fixed_prices, hour_prices, supplier, winner, time⟩

/-- Modelled from the spec: inverse of `Lot.to_document` (§4.6). -/
def Lot.from_document (j : Json) : Except String Lot := do
  let name ← (← j.getField "name").asStr
  let details ← (← j.getField "details").asStr
  let bs ← (← j.getField "bids").asArr
  let bids ← traverseE Bid.from_document bs
  return ⟨name, details, bids⟩

/-- Modelled from the spec: inverse of `Procurement.to_document` (§4.6). -/
def Procurement.from_document (j : Json) : Except String Procurement := do
  let ls ← (← j.getField "lots").asArr
  let lots ← traverseE Lot.from_document ls
  let name ← (← j.getField "name").asStr
  let details ← (← j.getField "details").asStr
  let format_version ← (← j.getField "format_version").asStr
  let organization_id ← (← j.getField "organization_id").asInt
  let time ← (← j.getField "time").asStr
  let sups ← (← j.getField "suppliers").asArr
  let suppliers ← traverseE Supplier.from_document sups
  return ⟨lots, name, details, format_version, organization_id, time, suppliers⟩

theorem traverseE_map (f : α → Except String β) (g : β → α)
    (h : ∀ b, f (g b) = .ok b) (l : List β) :
    traverseE f (l.map g) = .ok l := by
  induction l with
  | nil => rfl
  | cons b l ih => simp [traverseE, h b, ih]

theorem contactPerson_from_to (c : ContactPerson) :
    ContactPerson.from_document c.to_document = .ok c := rfl

theorem listPrice_from_to (lp : ListPrice) :
    ListPrice.from_document lp.to_document = .ok lp := rfl

theorem traverseE_contact (l : List ContactPerson) :
    traverseE ContactPerson.from_document (l.map ContactPerson.to_document) = .ok l :=
  traverseE_map _ _ contactPerson_from_to l

theorem traverseE_listprice (l : List ListPrice) :
    traverseE ListPrice.from_document (l.map ListPrice.to_document) = .ok l :=
  traverseE_map _ _ listPrice_from_to l

theorem supplier_from_to (s : Supplier) :
    Supplier.from_document s.to_document = .ok s := by
  have h : Supplier.from_document s.to_document =
      Except.bind (traverseE ContactPerson.from_document
        (s.contact_persons.map ContactPerson.to_document))
        (fun cps => .ok ⟨s.id, s.name, s.adress, s.city, s.postcode, s.country,
          s.country_wikidata, cps, s.organization_code, s.fskatt, s.bankruptcy⟩) := rfl
  rw [h, traverseE_contact]
  rfl

theorem bid_from_to (b : Bid) :
    Bid.from_document b.to_document = .ok b := by
  have h : Bid.from_document b.to_document =
      Except.bind (traverseE ListPrice.from_document
        (b.fixed_prices.map ListPrice.to_document))
        (fun fps => Except.bind (traverseE ListPrice.from_document
          (b.hour_prices.map ListPrice.to_document))
          (fun hps => .ok ⟨fps, hps, b.supplier, b.winner, b.time⟩)) := rfl
  rw [h, traverseE_listprice, traverseE_listprice]
  rfl

theorem traverseE_bid (l : List Bid) :
    traverseE Bid.from_document (l.map Bid.to_document) = .ok l :=
  traverseE_map _ _ bid_from_to l

theorem lot_from_to (l : Lot) :
    Lot.from_document l.to_document = .ok l := by
  have h : Lot.from_document l.to_document =
      Except.bind (traverseE Bid.from_document (l.bids.map Bid.to_document))
        (fun bs => .ok ⟨l.name, l.details, bs⟩) := rfl
  rw [h, traverseE_bid]
  rfl

theorem traverseE_lot (l : List Lot) :
    traverseE Lot.from_document (l.map Lot.to_document) = .ok l :=
  traverseE_map _ _ lot_from_to l

theorem traverseE_supplier (l : List Supplier) :
    traverseE Supplier.from_document (l.map Supplier.to_document) = .ok l :=
  traverseE_map _ _ supplier_from_to l

theorem procurement_from_to (p : Procurement) :
    Procurement.from_document p.to_document = .ok p := by
  have h : Procurement.from_document p.to_document =
      Except.bind (traverseE Lot.from_document (p.lots.map Lot.to_document))
        (fun ls => Except.bind (traverseE Supplier.from_document
          (p.suppliers.map Supplier.to_document))
          (fun sups => .ok ⟨ls, p.name, p.details, p.format_version,
            p.organization_id, p.time, sups⟩)) := rfl
  rw [h, traverseE_lot, traverseE_supplier]
  rfl

/-! ### Construction of the value types

pydantic validates only the declared field types at construction; none of
the models declares a field validator, so construction from already-typed
values always succeeds.  The fallible return type records where a
`ValidationError` could be signalled. -/

/-- Construction of a `ContactPerson` (pydantic `BaseModel` with no
validators). -/
def ContactPerson.construct (name email phone : String) :
    Except String ContactPerson :=
  .ok ⟨name, email, phone⟩

/-- Construction of a `ListPrice` (pydantic `BaseModel` with no
validators). -/
def ListPrice.construct (name : String) (price : ℚ) (currency details : String) :
    Except String ListPrice :=
  .ok ⟨name, price, currency, details⟩

/-! ### The claims -/

theorem lotCheck_eq_ok_iff (lot : Lot) :
    lotCheck lot = .ok () ↔ lot.at_least_one_winning_bid = true := by
  unfold lotCheck
  by_cases h : lot.at_least_one_winning_bid <;> simp [h]

/-- Scenario D instance for C1: one lot whose only bid is a winner and
references supplier id 99; the roster holds only supplier id 1. -/
def pC1 : Procurement :=
  ⟨[⟨"north", "offices", [⟨[], [], 99, true, "2024-01-10T00:00:00"⟩]⟩],
   "cleaning", "one lot", "1", 1, "2024-01-10T00:00:00",
   [⟨1, "Alltvatt", "Allvagen 1", "Norrtalje", "12345", "Sweden", "Q34",
     [⟨"Julie", "julie@alltvatt.se", "12345"⟩], "123456-1213", true, false⟩]⟩

/-- C1: the winning bid of `pC1` references supplier id 99, which resolves
to no roster entry, yet validation reports nothing at all: the unresolved
id is silently skipped, where the claim requires an `IntegrityError`. -/
theorem C1_unresolved_winner_silently_passes : pC1.check = .ok () := rfl

/-- Two lots, both without a winning bid. -/
def pC2 : Procurement :=
  ⟨[⟨"north", "n", []⟩, ⟨"south", "s", []⟩], "p", "d", "1", 1, "t", []⟩

/-- C2 counterexample: every lot of `pC2` violates the award-existence
rule, yet validation reports only the single first failure — it aborts by
raising, rather than returning a list of all failures; the second lot's
violation goes unreported. -/
theorem C2_counterexample :
    (∀ lot ∈ pC2.lots, lot.at_least_one_winning_bid = false) ∧
    pC2.lots.length = 2 ∧
    pC2.check = .error (.lotError "Lot 'north' does not have a winning bid") :=
  ⟨by decide, rfl, rfl⟩

/-- C2 amended: validation aborts at the first violation and reports
exactly that one typed failure; it completes without failure iff there is
no violation at all: every lot has a winning bid, and every roster
supplier matching a winning bid's supplier id is F-skatt registered and
has not filed for bankruptcy. -/
theorem C2_pass_iff_no_violation (p : Procurement) :
    p.check = .ok () ↔
      ((∀ lot ∈ p.lots, lot.at_least_one_winning_bid = true) ∧
       (∀ lot ∈ p.lots, ∀ bid ∈ lot.get_winning_bids, ∀ s ∈ p.suppliers,
         s.id = bid.supplier → s.fskatt = true) ∧
       (∀ lot ∈ p.lots, ∀ bid ∈ lot.get_winning_bids, ∀ s ∈ p.suppliers,
         s.id = bid.supplier → s.bankruptcy = false)) := by
  rw [check_eq_ok_iff, fskatt_check_eq_ok_iff, bankruptcy_check_eq_ok_iff,
    firstError_eq_ok_iff]
  simp only [lotCheck_eq_ok_iff]

/-- Two lots, "alpha" and "beta", both without a winning bid. -/
def pC3 : Procurement :=
  ⟨[⟨"alpha", "a", []⟩, ⟨"beta", "b", []⟩], "p", "d", "1", 1, "t", []⟩

/-- C3 counterexample: lot "beta" has zero winning bids, but the whole
validation outcome is a single `LotError` naming "alpha"; no failure
naming "beta" is reported, refuting "a LotError naming that lot" for
every such lot. -/
theorem C3_counterexample :
    (∃ lot ∈ pC3.lots, lot.name = "beta" ∧ lot.at_least_one_winning_bid = false) ∧
    pC3.check = .error (.lotError "Lot 'alpha' does not have a winning bid") :=
  ⟨by decide, rfl⟩

/-- C3 amended: validation reports a `LotError` naming the first lot (in
lot order) with zero winning bids; when every lot has at least one
winning bid, no `LotError` is ever reported. -/
theorem C3_first_missing_winner_reported (p : Procurement) :
    (∀ lot, p.lots.find? (fun l => !l.at_least_one_winning_bid) = some lot →
      p.check = .error (.lotError ("Lot '" ++ lot.name ++ "' does not have a winning bid"))) ∧
    ((∀ lot ∈ p.lots, lot.at_least_one_winning_bid = true) →
      ∀ msg, p.check ≠ .error (.lotError msg)) := by
  constructor
  · exact fun lot h => check_eq_of_lot_fail p lot h
  · intro hall msg
    have hfind : p.lots.find? (fun l => !l.at_least_one_winning_bid) = none := by
      rw [List.find?_eq_none]
      intro l hl
      simp [hall l hl]
    rw [check_eq_of_lots_pass p hfind]
    rcases fskatt_check_cases p with hok | ⟨s, _, _, he⟩
    · rw [hok, andThen_ok]
      rcases bankruptcy_check_cases p with hok2 | ⟨s2, _, _, he2⟩
      · rw [hok2]; simp
      · rw [he2]; simp
    · rw [he, andThen_error]; simp

/-- One lot whose two winning bids both resolve to suppliers without
F-skatt registration. -/
def pC4 : Procurement :=
  ⟨[⟨"south", "s", [⟨[], [], 1, true, "t"⟩, ⟨[], [], 2, true, "t"⟩]⟩],
   "p", "d", "1", 1, "t",
   [⟨1, "Alpha AB", "A 1", "X", "1", "Sweden", "Q34", [], "111111-1111", false, false⟩,
    ⟨2, "Beta AB", "B 2", "X", "2", "Sweden", "Q34", [], "222222-2222", false, false⟩]⟩

/-- C4 counterexample: every lot of `pC4` has a winning bid and both
winning bids resolve to suppliers with `fskatt = false`, yet validation
reports a single `BidError` naming only "Alpha AB"; no failure naming
"Beta AB" is reported, refuting the for-each-winning-bid reading. -/
theorem C4_counterexample :
    (∀ lot ∈ pC4.lots, lot.at_least_one_winning_bid = true) ∧
    (∃ s ∈ pC4.suppliers, s.name = "Beta AB" ∧ s.fskatt = false) ∧
    pC4.check = .error (.bidError "Alpha AB is not registered for F-skatt") :=
  ⟨by decide, by decide, rfl⟩

/-- C4 amended: when every lot has a winning bid, validation passes iff
every roster supplier matching a winning bid's supplier id is
tax-registered and not bankrupt; otherwise it raises one `BidError`
naming an offending supplier — one without F-skatt when such a winning
bid exists (the F-skatt sweep over all lots runs first), else a bankrupt
one. -/
theorem C4_winner_eligibility (p : Procurement)
    (hlots : ∀ lot ∈ p.lots, lot.at_least_one_winning_bid = true) :
    ((∀ lot ∈ p.lots, ∀ bid ∈ lot.get_winning_bids, ∀ s ∈ p.suppliers,
        s.id = bid.supplier → s.fskatt = true ∧ s.bankruptcy = false) →
      p.check = .ok ()) ∧
    (¬ (∀ lot ∈ p.lots, ∀ bid ∈ lot.get_winning_bids, ∀ s ∈ p.suppliers,
        s.id = bid.supplier → s.fskatt = true) →
      ∃ s ∈ p.suppliers, s.fskatt = false ∧
        p.check = .error (.bidError (s.name ++ " is not registered for F-skatt"))) ∧
    ((∀ lot ∈ p.lots, ∀ bid ∈ lot.get_winning_bids, ∀ s ∈ p.suppliers,
        s.id = bid.supplier → s.fskatt = true) →
      ¬ (∀ lot ∈ p.lots, ∀ bid ∈ lot.get_winning_bids, ∀ s ∈ p.suppliers,
        s.id = bid.supplier → s.bankruptcy = false) →
      ∃ s ∈ p.suppliers, s.bankruptcy = true ∧
        p.check = .error (.bidError (s.name ++ " has filed for bankruptcy"))) := by
  have hfind : p.lots.find? (fun l => !l.at_least_one_winning_bid) = none := by
    rw [List.find?_eq_none]
    intro l hl
    simp [hlots l hl]
  have hch := check_eq_of_lots_pass p hfind
  refine ⟨?_, ?_, ?_⟩
  · intro hall
    rw [hch]
    have hf : p.check_organization_behind_winning_bids_have_fskatt = .ok () := by
      rw [fskatt_check_eq_ok_iff]
      intro lot hlot bid hbid s hs hid
      exact (hall lot hlot bid hbid s hs hid).1
    have hb : p.check_organization_behind_winning_bids_have_not_filed_for_bankruptcy = .ok () := by
      rw [bankruptcy_check_eq_ok_iff]
      intro lot hlot bid hbid s hs hid
      exact (hall lot hlot bid hbid s hs hid).2
    rw [hf, andThen_ok, hb]
  · intro hnot
    rcases fskatt_check_cases p with hok | ⟨s, hs, hf, he⟩
    · exact absurd ((fskatt_check_eq_ok_iff p).mp hok) hnot
    · exact ⟨s, hs, hf, by rw [hch, he, andThen_error]⟩
  · intro hfskatt hnot
    have hf : p.check_organization_behind_winning_bids_have_fskatt = .ok () :=
      (fskatt_check_eq_ok_iff p).mpr hfskatt
    rcases bankruptcy_check_cases p with hok | ⟨s, hs, hb, he⟩
    · exact absurd ((bankruptcy_check_eq_ok_iff p).mp hok) hnot
    · exact ⟨s, hs, hb, by rw [hch, hf, andThen_ok, he]⟩

/-- One lot with one winning bid from a fully eligible supplier. -/
def pC4w : Procurement :=
  ⟨[⟨"south", "s", [⟨[], [], 1, true, "t"⟩]⟩], "p", "d", "1", 1, "t",
   [⟨1, "Alpha AB", "A 1", "X", "1", "Sweden", "Q34", [], "111111-1111", true, false⟩]⟩

/-- Witness for C4: on `pC4w` every winning bid's supplier is eligible and
validation indeed passes. -/
theorem C4_witness : pC4w.check = .ok () :=
  (C4_winner_eligibility pC4w (by decide)).1 (by decide)

/-- C5: serializing any Procurement with `to_document` and deserializing
with `from_document` (modelled from spec §4.6, the deserializer being
absent from the sources) yields the structurally equal aggregate. -/
theorem C5_round_trip (p : Procurement) :
    Procurement.from_document p.to_document = .ok p :=
  procurement_from_to p

/-- C6 counterexample: construction succeeds — no `ValidationError` — on a
`ContactPerson` whose every field is the empty string or whose email has
no "@", and on a `ListPrice` with a negative price. -/
theorem C6_counterexample :
    ContactPerson.construct "" "julie.alltvatt.se" "" =
      .ok ⟨"", "julie.alltvatt.se", ""⟩ ∧
    "julie.alltvatt.se".toList.contains '@' = false ∧
    ListPrice.construct "washing of carpet" (-150) "SEK" "d" =
      .ok ⟨"washing of carpet", -150, "SEK", "d"⟩ ∧
    (-150 : ℚ) < 0 :=
  ⟨rfl, by decide, rfl, by norm_num⟩

/-- C6 amended: construction of the value types performs no field
validation at all — any well-typed values (empty strings, an email
without "@", a negative price) are accepted, stored unchanged, with no
side effects. -/
theorem C6_construction_never_fails (name email phone pname : String)
    (price : ℚ) (currency details : String) :
    ContactPerson.construct name email phone = .ok ⟨name, email, phone⟩ ∧
    ListPrice.construct pname price currency details =
      .ok ⟨pname, price, currency, details⟩ :=
  ⟨rfl, rfl⟩

/-- C7: `get_winning_bids` yields exactly the contained bids with
`winner = true`, as a subsequence of the lot's bid list (original
insertion order, duplicates preserved), and `at_least_one_winning_bid` is
true iff that sequence is non-empty.  Both queries are total functions on
the lot: they cannot raise and return without touching the lot. -/
theorem C7_winning_bid_queries (l : Lot) :
    l.get_winning_bids.Sublist l.bids ∧
    (∀ b ∈ l.get_winning_bids, b.winner = true) ∧
    (∀ b ∈ l.bids, b.winner = true → b ∈ l.get_winning_bids) ∧
    (∀ b : Bid, b.winner = true → l.get_winning_bids.count b = l.bids.count b) ∧
    (l.at_least_one_winning_bid = true ↔ l.get_winning_bids ≠ []) := by
  refine ⟨List.filter_sublist l.bids, ?_, ?_, ?_, ?_⟩
  · intro b hb
    exact (List.mem_filter.mp hb).2
  · intro b hb hw
    exact List.mem_filter.mpr ⟨hb, hw⟩
  · intro b hw
    exact List.count_filter hw
  · unfold Lot.at_least_one_winning_bid Lot.get_winning_bids
    rw [List.any_eq_true]
    constructor
    · rintro ⟨b, hb, hw⟩ hnil
      have hmem : b ∈ l.bids.filter (fun b => b.winner) :=
        List.mem_filter.mpr ⟨hb, hw⟩
      rw [hnil] at hmem
      cases hmem
    · intro h
      obtain ⟨b, hb⟩ := List.exists_mem_of_ne_nil _ h
      have := List.mem_filter.mp hb
      exact ⟨b, this.1, this.2⟩

/-- Lot "south" has an F-skatt-less winning supplier, lot "north" has no
winning bid at all. -/
def pC8 : Procurement :=
  ⟨[⟨"south", "s", [⟨[], [], 1, true, "t"⟩]⟩, ⟨"north", "n", []⟩],
   "p", "d", "1", 1, "t",
   [⟨1, "Gamma AB", "G 3", "X", "3", "Sweden", "Q34", [], "333333-3333", false, true⟩]⟩

/-- C8: whenever some lot has no winning bid, the validation outcome is a
`LotError` for such a lot, and never a `BidError` — the award-existence
loop over all lots runs before any supplier lookup or eligibility
check. -/
theorem C8_lot_error_before_supplier_checks (p : Procurement)
    (h : ∃ lot ∈ p.lots, lot.at_least_one_winning_bid = false) :
    (∃ lot ∈ p.lots, lot.at_least_one_winning_bid = false ∧
      p.check = .error (.lotError ("Lot '" ++ lot.name ++ "' does not have a winning bid"))) ∧
    ∀ msg, p.check ≠ .error (.bidError msg) := by
  obtain ⟨lot0, hmem0, hno0⟩ := h
  have hfind : ∃ lot, p.lots.find? (fun l => !l.at_least_one_winning_bid) = some lot := by
    cases hf : p.lots.find? (fun l => !l.at_least_one_winning_bid) with
    | some lot => exact ⟨lot, rfl⟩
    | none =>
      rw [List.find?_eq_none] at hf
      have := hf lot0 hmem0
      simp [hno0] at this
  obtain ⟨lot, hf⟩ := hfind
  have hcheck := check_eq_of_lot_fail p lot hf
  have hlotmem := List.mem_of_find?_eq_some hf
  have hlotno := List.find?_some hf
  simp only [Bool.not_eq_true'] at hlotno
  refine ⟨⟨lot, hlotmem, hlotno, hcheck⟩, ?_⟩
  intro msg hc
  rw [hcheck] at hc
  simp at hc

/-- Witness for C8: on `pC8` the missing winner of lot "north" is the
reported failure, although lot "south" has a winning bid from an
ineligible (non-F-skatt, bankrupt) supplier; no `BidError` is
reported. -/
theorem C8_witness :
    (∃ lot ∈ pC8.lots, lot.at_least_one_winning_bid = false ∧
      pC8.check = .error (.lotError ("Lot '" ++ lot.name ++ "' does not have a winning bid"))) ∧
    ∀ msg, pC8.check ≠ .error (.bidError msg) :=
  C8_lot_error_before_supplier_checks pC8 (by decide)

/-- C9: validation is a pure verifier — the state-passing reading of
`check` returns the input aggregate unchanged as post-state on every
path, pass or fail, and its result is exactly `check`'s. -/
theorem C9_check_leaves_aggregate_unchanged (p : Procurement) :
    (p.check_run).2 = p ∧ (p.check_run).1 = p.check := by
  unfold Procurement.check_run Procurement.check
  cases h1 : firstError lotCheck p.lots with
  | error e => simp [andThen, h1]
  | ok u =>
    cases u
    cases h2 : p.check_organization_behind_winning_bids_have_fskatt with
    | error e => simp [andThen, h2]
    | ok u2 =>
      cases u2
      cases h3 : p.check_organization_behind_winning_bids_have_not_filed_for_bankruptcy with
      | error e => simp [andThen, h3]
      | ok u3 => cases u3; simp [andThen, h3]

/-- C10: when every lot has a winning bid and some winning bid's matching
supplier both lacks F-skatt and is bankrupt, the reported failure is the
F-skatt one: the F-skatt sweep over all lots completes before any
bankruptcy check runs. -/
theorem C10_fskatt_reported_before_bankruptcy (p : Procurement)
    (hlots : ∀ lot ∈ p.lots, lot.at_least_one_winning_bid = true)
    (hbad : ∃ lot ∈ p.lots, ∃ bid ∈ lot.get_winning_bids, ∃ s ∈ p.suppliers,
      s.id = bid.supplier ∧ s.fskatt = false ∧ s.bankruptcy = true) :
    ∃ s ∈ p.suppliers, s.fskatt = false ∧
      p.check = .error (.bidError (s.name ++ " is not registered for F-skatt")) := by
  have hfind : p.lots.find? (fun l => !l.at_least_one_winning_bid) = none := by
    rw [List.find?_eq_none]
    intro l hl
    simp [hlots l hl]
  have hch := check_eq_of_lots_pass p hfind
  have hnotall : ¬ (∀ lot ∈ p.lots, ∀ bid ∈ lot.get_winning_bids, ∀ s ∈ p.suppliers,
      s.id = bid.supplier → s.fskatt = true) := by
    intro hall
    obtain ⟨lot, hlot, bid, hbid, s, hs, hid, hf, _⟩ := hbad
    have := hall lot hlot bid hbid s hs hid
    rw [hf] at this
    cases this
  rcases fskatt_check_cases p with hok | ⟨s, hs, hf, he⟩
  · exact absurd ((fskatt_check_eq_ok_iff p).mp hok) hnotall
  · exact ⟨s, hs, hf, by rw [hch, he, andThen_error]⟩

/-- One lot with one winning bid whose supplier both lacks F-skatt and is
bankrupt. -/
def pC10 : Procurement :=
  ⟨[⟨"north", "n", [⟨[], [], 7, true, "t"⟩]⟩], "p", "d", "1", 1, "t",
   [⟨7, "Delta AB", "D 4", "X", "4", "Sweden", "Q34", [], "444444-4444", false, true⟩]⟩

/-- Witness for C10: on `pC10` the doubly ineligible supplier is reported
with the F-skatt failure, not the bankruptcy one. -/
theorem C10_witness :
    ∃ s ∈ pC10.suppliers, s.fskatt = false ∧
      pC10.check = .error (.bidError (s.name ++ " is not registered for F-skatt")) :=
  C10_fskatt_reported_before_bankruptcy pC10 (by decide) (by decide)

end Procure
